import Mathlib

/-!
# Verification of the UmTRX streaming I/O subsystem (host/lib/usrp/umtrx/io_impl.cpp)

Shallow embedding of the streaming engine of the UmTRX UHD driver:
the per-channel flow control monitor, the async event queue, the
reception-monitor ("pirate") loop body, the send-buffer acquisition
path, and the channel-binding loops of `get_rx_stream`/`get_tx_stream`.

Machine integers (`boost::uint32_t`) are modelled as `Nat` reduced
modulo `2^32` at every operation that the C++ code performs on them.
-/

namespace Umtrx

/-- `2^32`, the modulus of `boost::uint32_t` (`flow_control_monitor::seq_type`). -/
def seqMod : Nat := 2 ^ 32

/-- Unsigned 32-bit subtraction `seq_type(a - b)`: wraparound arithmetic
modulo `2^32`, for operands already reduced below `2^32`. -/
def sub32 (a b : Nat) : Nat := (a + seqMod - b % seqMod) % seqMod

/-- The mutable counters of `flow_control_monitor`:
`_last_seq_out` and `_last_seq_ack` (both `boost::uint32_t`). -/
structure FCState where
  last_seq_out : Nat
  last_seq_ack : Nat
  deriving Repr, DecidableEq

/-- `flow_control_monitor::clear()`: both counters are set to zero.
Also the state right after construction, since the constructor calls `clear`. -/
def FCState.clear : FCState := ⟨0, 0⟩

/-- `flow_control_monitor::ready()`:
`seq_type(_last_seq_out - _last_seq_ack) < _max_seqs_out`. -/
def ready (max_seqs_out : Nat) (s : FCState) : Bool :=
  sub32 s.last_seq_out s.last_seq_ack < max_seqs_out

/-- `flow_control_monitor::get_curr_seq_out()`: returns `_last_seq_out`
and post-increments it (mod `2^32`). -/
def get_curr_seq_out (s : FCState) : Nat × FCState :=
  (s.last_seq_out, { s with last_seq_out := (s.last_seq_out + 1) % seqMod })

/-- `flow_control_monitor::update_fc_condition(seq)` (the body of
`acknowledge`): unconditionally stores `seq` into `_last_seq_ack`.
The `% seqMod` is the `seq_type` coercion at the call boundary. -/
def update_fc_condition (seq : Nat) (s : FCState) : FCState :=
  { s with last_seq_ack := seq % seqMod }

/-- The repeated predicate re-check of
`_fc_cond.timed_wait(lock, dur, _ready_fcn)`: each acknowledgement
delivered during the wait wakes the waiter, which re-evaluates
`ready()`; when the list of deliveries is exhausted the timeout has
elapsed and the final predicate value is returned. -/
def timed_wait_ready (max_seqs_out : Nat) : FCState → List Nat → Bool × FCState
  | s, [] => (ready max_seqs_out s, s)
  | s, a :: rest =>
      let s' := update_fc_condition a s
      if ready max_seqs_out s' then (true, s')
      else timed_wait_ready max_seqs_out s' rest

/-- `flow_control_monitor::check_fc_condition(timeout)` (`wait_ready`):
returns true immediately when `ready()` holds, otherwise performs the
timed wait. `acksDuringWait` lists the acknowledgements delivered by
the reception task before the timeout elapses (empty when nothing is
acknowledged during the wait). -/
def check_fc_condition (max_seqs_out : Nat) (s : FCState)
    (acksDuringWait : List Nat) : Bool × FCState :=
  if ready max_seqs_out s then (true, s)
  else timed_wait_ready max_seqs_out s acksDuringWait

/-- The operations a client may perform on a flow control monitor. -/
inductive FCOp
  | next_sequence
  | acknowledge (seq : Nat)
  deriving Repr, DecidableEq

/-- One monitor operation acting on the state. -/
def FCState.step : FCState → FCOp → FCState
  | s, .next_sequence => (get_curr_seq_out s).2
  | s, .acknowledge seq => update_fc_condition seq s

/-- Run a sequence of `next_sequence`/`acknowledge` calls from the
cleared (freshly constructed) state. -/
def FCState.run (ops : List FCOp) : FCState :=
  ops.foldl FCState.step FCState.clear

/-! ## 32-bit words on the wire

A wire word is its four bytes in transmission order.  `uhd::ntohx` /
`uhd::htonx` convert between the big-endian wire word and its numeric
value, independently of the host's byte order. -/

/-- A 32-bit word as its four bytes in wire (transmission) order. -/
structure Word32 where
  byte0 : Nat
  byte1 : Nat
  byte2 : Nat
  byte3 : Nat
  deriving Repr, DecidableEq

/-- `uhd::ntohx<boost::uint32_t>`: the numeric value of a big-endian wire word. -/
def ntohx (w : Word32) : Nat :=
  w.byte0 * 2 ^ 24 + w.byte1 * 2 ^ 16 + w.byte2 * 2 ^ 8 + w.byte3

/-- `uhd::htonx<boost::uint32_t>`: split a 32-bit value into big-endian wire bytes. -/
def htonx (x : Nat) : Word32 :=
  ⟨x / 2 ^ 24 % 256, x / 2 ^ 16 % 256, x / 2 ^ 8 % 256, x % 256⟩

/-! ## Async event queue

Modelled from the spec: the async event queue is a
`uhd::transport::bounded_buffer` (constructed 100 messages deep in
`io_impl::io_impl`) whose implementation file is not under `src/`; per
the spec it is a bounded FIFO of fixed capacity whose
`push_with_pop_on_full` always succeeds, discarding the single oldest
entry first when the queue is full.  Items are listed oldest first. -/
structure BoundedQueue (α : Type) where
  capacity : Nat
  items : List α
  deriving Repr, DecidableEq

/-- Modelled from the spec: `bounded_buffer::push_with_pop_on_full` —
append the new element; when already full, pop the single oldest entry
first; the push itself always succeeds (returns true). -/
def push_with_pop_on_full {α : Type} (q : BoundedQueue α) (x : α) :
    Bool × BoundedQueue α :=
  if q.items.length < q.capacity then (true, ⟨q.capacity, q.items ++ [x]⟩)
  else (true, ⟨q.capacity, q.items.tail ++ [x]⟩)

/-- The async metadata the pirate loop fills in for a status frame
(`uhd::async_metadata_t`): channel index, whether a time spec was
present, and the event code.  The numeric `time_spec_t` value is
elided (it is floating-point). -/
structure AsyncMetadata where
  channel : Nat
  has_time_spec : Bool
  event_code : Nat
  deriving Repr, DecidableEq

/-- `io_impl::io_impl()`: the async message fifo is constructed
100 messages deep and initially empty. -/
def async_msg_fifo_init : BoundedQueue AsyncMetadata := ⟨100, []⟩

/-! ## Reception monitor ("pirate") loop body -/

/-- A decoded status frame as `recv_pirate_loop` sees it after
`vrt::if_hdr_unpack_be`: stream id, whether the packet type is DATA,
time-stamp presence flags, the context/event code read from the
trailing status word by `sph::get_context_code`, and the payload words
following the header (wire order). -/
structure StatusFrame where
  sid : Nat
  is_data : Bool
  has_tsi : Bool
  has_tsf : Bool
  event_code : Nat
  payload : List Word32
  deriving Repr, DecidableEq

/-- The shared state one pirate task touches: its channel's flow
control monitor and the async message fifo. -/
structure PirateState where
  fc : FCState
  fifo : BoundedQueue AsyncMetadata
  deriving Repr, DecidableEq

/-- The body of `umtrx_impl::io_impl::recv_pirate_loop` for one decoded
frame (io_impl.cpp lines 200–233), parametrised by the async stream id
base `USRP2_TX_ASYNC_SID_BASE` (defined in a header outside `src/`):
a frame on the async sid whose packet type is not DATA either carries
event code 0 — a flow control ack, whose credit word
`(vrt_hdr + num_header_words32)[1]` (the second payload word) updates
the monitor and which is never enqueued — or any other event code, in
which case one async metadata entry is pushed with
drop-oldest-on-full semantics; any other frame is dropped silently. -/
def recv_pirate_step (sidBase : Nat) (index : Nat) (frame : StatusFrame)
    (st : PirateState) : PirateState :=
  if (frame.sid = sidBase ∨ frame.sid = sidBase + 1) ∧ frame.is_data = false then
    let metadata : AsyncMetadata :=
      ⟨index, frame.has_tsi && frame.has_tsf, frame.event_code⟩
    if frame.event_code = 0 then
      { st with fc := update_fc_condition (ntohx (frame.payload.getD 1 ⟨0, 0, 0, 0⟩)) st.fc }
    else
      { st with fifo := (push_with_pop_on_full st.fifo metadata).2 }
  else st

/-! ## Send buffer acquisition -/

/-- `umtrx_impl::io_impl::get_send_buff` (io_impl.cpp lines 149–162)
for one channel: wait on flow control with the timeout (returning a
null buffer on timeout), then ask the transport for a send buffer
(`transportBuff` is the transport's reply), and only when a buffer was
actually obtained draw the next sequence number and write it,
byte-swapped, into the buffer's first 32-bit word.
`acksDuringWait` lists acknowledgements delivered during the
flow-control wait. -/
def get_send_buff (max_seqs_out : Nat) (acksDuringWait : List Nat)
    (transportBuff : Option (List Word32)) (s : FCState) :
    Option (List Word32) × FCState :=
  let fc := check_fc_condition max_seqs_out s acksDuringWait
  if fc.1 = false then (none, fc.2)
  else
    match transportBuff with
    | none => (none, fc.2)
    | some buff =>
        let sq := get_curr_seq_out fc.2
        (some (buff.set 0 (htonx sq.1)), sq.2)

/-! ## Channel binder (`get_rx_stream` / `get_tx_stream` binding loops) -/

/-- The per-channel binding loop shared by `get_rx_stream` (lines
439–456) and `get_tx_stream` (lines 507–528): walk the motherboards in
registration order accumulating `num_chan_so_far` from each board's
channel occupancy; the first board for which `chan < num_chan_so_far`
binds the channel at local DSP slot `chan + occ - num_chan_so_far`;
when no board matches, the loop simply ends and the channel is left
unbound. -/
def bindLoop (chan : Nat) : List Nat → Nat → Nat → Option (Nat × Nat)
  | [], _, _ => none
  | occ :: rest, boardIdx, num_chan_so_far =>
      let n := num_chan_so_far + occ
      if chan < n then some (boardIdx, chan + occ - n)
      else bindLoop chan rest (boardIdx + 1) n

/-- Resolve a logical channel index against the configured per-board
channel occupancies (in registration order): `some (board, dsp)` or
`none` when the index is unresolvable. -/
def resolveChan (occs : List Nat) (chan : Nat) : Option (Nat × Nat) :=
  bindLoop chan occs 0 0

/-- Specification-level resolver, following the spec's words: the
first board's channels occupy the lowest logical indices; a channel
falling on a later board is resolved recursively against the remaining
boards after subtracting this board's occupancy, and the slot on the
matched board is the offset of the channel within that board. -/
def resolveSpec : List Nat → Nat → Option (Nat × Nat)
  | [], _ => none
  | occ :: rest, chan =>
      if chan < occ then some (0, chan)
      else (resolveSpec rest (chan - occ)).map (fun p => (p.1 + 1, p.2))

/-- The stream arguments `get_rx_stream`/`get_tx_stream` consume:
the over-the-wire format string and the requested logical channels. -/
structure StreamArgs where
  otw_format : String
  channels : List Nat
  deriving Repr, DecidableEq

/-- The error thrown by `get_tx_stream` for an unsupported wire
format (`uhd::value_error`). -/
inductive StreamError
  | value_error (msg : String)
  deriving Repr, DecidableEq

/-- `umtrx_impl::get_tx_stream` (io_impl.cpp lines 471–534), reduced to
the decisions the format check and the binding loop make: an empty
format defaults to `"sc16"` and an empty channel list to `[0]`; any
other format throws `uhd::value_error` before any channel is bound;
otherwise each requested channel is resolved (or silently left
unbound) by the binding loop. -/
def get_tx_stream (occs : List Nat) (args : StreamArgs) :
    Except StreamError (List (Option (Nat × Nat))) :=
  let fmt := if args.otw_format = "" then "sc16" else args.otw_format
  let chans := if args.channels = [] then [0] else args.channels
  if fmt ≠ "sc16" then
    .error (.value_error ("USRP TX cannot handle requested wire format: " ++ fmt))
  else
    .ok (chans.map (resolveChan occs))

/-- The binding part of `umtrx_impl::get_rx_stream` (io_impl.cpp lines
406–466): no format restriction; an empty channel list defaults to
`[0]`; each requested channel is resolved (or silently left unbound)
by the binding loop over the rx channel occupancies. -/
def get_rx_stream (occs : List Nat) (args : StreamArgs) :
    List (Option (Nat × Nat)) :=
  let chans := if args.channels = [] then [0] else args.channels
  chans.map (resolveChan occs)

/-! ## Concrete scenarios -/

/-- Four `next_sequence()` calls on a freshly cleared monitor. -/
def fourSends : List FCOp :=
  [.next_sequence, .next_sequence, .next_sequence, .next_sequence]

/-- A synthetic flow-control acknowledgement frame: event code 0,
credit word 7 in the second payload word. -/
def ackFrame7 (sidBase : Nat) : StatusFrame :=
  ⟨sidBase, false, false, false, 0, [htonx 0, htonx 7]⟩

/-- A synthetic underflow status frame (`EVENT_CODE_UNDERFLOW = 0x2`). -/
def underflowFrame (sidBase : Nat) : StatusFrame :=
  ⟨sidBase, false, false, false, 2, [htonx 0, htonx 7]⟩

/-- A pirate-task state with a non-trivial monitor and an empty fifo. -/
def pirateState0 : PirateState := ⟨⟨9, 3⟩, async_msg_fifo_init⟩

end Umtrx

namespace Umtrx

/-! ## Theorems -/

/-- C1: for every sequence of `next_sequence()`/`acknowledge()` calls
on a monitor with window `max_seqs_out`, `ready()` is true iff the
unsigned 32-bit difference `last_seq_out − last_seq_ack` (mod `2^32`)
is strictly below the window — at every state, the wraparound boundary
near `2^32` included. -/
theorem flow_control_ready_iff (ops : List FCOp) (max_seqs_out : Nat) :
    ready max_seqs_out (FCState.run ops) = true ↔
      sub32 (FCState.run ops).last_seq_out (FCState.run ops).last_seq_ack
        < max_seqs_out := by
  simp [ready]

/-- C5: `acknowledge(seq)` (`update_fc_condition`) unconditionally
overwrites `last_seq_ack` with `seq` (reduced to 32 bits) for every
prior monitor state — last-value-wins, no monotonicity guard — and
leaves `last_seq_out` untouched. -/
theorem acknowledge_last_value_wins (s : FCState) (seq : Nat) :
    (update_fc_condition seq s).last_seq_ack = seq % seqMod ∧
    (update_fc_condition seq s).last_seq_out = s.last_seq_out :=
  ⟨rfl, rfl⟩

/-- C2 counterexample: with window 4, after four `next_sequence()`
calls `wait_ready` returns false as claimed, but after `acknowledge(0)`
the unsigned difference is `4 − 0 = 4`, still not below the window, so
`wait_ready` again returns false — not true as the claim states. -/
theorem window4_ack0_still_blocked :
    (check_fc_condition 4 (FCState.run fourSends) []).1 = false ∧
    (check_fc_condition 4
        (FCState.step (FCState.run fourSends) (.acknowledge 0)) []).1 = false := by
  constructor <;> decide

/-- C2 amended: with window 4, after four `next_sequence()` calls
`wait_ready` returns false; a subsequent `acknowledge(0)` leaves it
false (difference 4), and it is `acknowledge(1)` that brings the
difference below the window, after which `wait_ready` returns true. -/
theorem window4_scenario_amended :
    (check_fc_condition 4 (FCState.run fourSends) []).1 = false ∧
    (check_fc_condition 4
        (FCState.step (FCState.run fourSends) (.acknowledge 0)) []).1 = false ∧
    (check_fc_condition 4
        (FCState.step (FCState.run fourSends) (.acknowledge 1)) []).1 = true := by
  refine ⟨?_, ?_, ?_⟩ <;> decide

/-- C3: the async message fifo is constructed with fixed capacity 100;
`push_with_pop_on_full` always succeeds, preserves the capacity, never
lets the size exceed the capacity, and on a full queue discards
exactly the single oldest entry (keeping the newly pushed one); with
capacity 2, pushing `a`, `b`, `c` in order leaves exactly `[b, c]`. -/
theorem async_queue_bounded_drop_oldest :
    async_msg_fifo_init.capacity = 100 ∧
    (∀ (q : BoundedQueue AsyncMetadata) (x : AsyncMetadata),
      0 < q.capacity → q.items.length ≤ q.capacity →
        (push_with_pop_on_full q x).1 = true ∧
        (push_with_pop_on_full q x).2.items.length ≤ q.capacity ∧
        (push_with_pop_on_full q x).2.capacity = q.capacity ∧
        (q.items.length = q.capacity →
          (push_with_pop_on_full q x).2.items = q.items.tail ++ [x])) ∧
    (∀ a b c : AsyncMetadata,
      (push_with_pop_on_full (push_with_pop_on_full
        (push_with_pop_on_full (⟨2, []⟩ : BoundedQueue AsyncMetadata) a).2 b).2 c).2.items
        = [b, c]) := by
  refine ⟨rfl, ?_, fun a b c => rfl⟩
  intro q x hpos hle
  by_cases h : q.items.length < q.capacity
  · refine ⟨by simp [push_with_pop_on_full, h], ?_, ?_, ?_⟩
    · simp [push_with_pop_on_full, h]
      omega
    · simp [push_with_pop_on_full, h]
    · intro heq
      omega
  · refine ⟨by simp [push_with_pop_on_full, h], ?_, ?_, ?_⟩
    · simp [push_with_pop_on_full, h]
      omega
    · simp [push_with_pop_on_full, h]
    · intro _
      simp [push_with_pop_on_full, h]

/-- Witness for C3: a concrete full queue of capacity 2 holding two
entries; pushing a third succeeds, stays within capacity, and drops
exactly the oldest entry. -/
theorem async_queue_bounded_drop_oldest_witness :
    (0 < 2 ∧
      ([⟨0, false, 1⟩, ⟨0, false, 2⟩] : List AsyncMetadata).length ≤ 2) ∧
    ((push_with_pop_on_full
        (⟨2, [⟨0, false, 1⟩, ⟨0, false, 2⟩]⟩ : BoundedQueue AsyncMetadata)
        ⟨0, false, 3⟩).1 = true ∧
      (push_with_pop_on_full
        (⟨2, [⟨0, false, 1⟩, ⟨0, false, 2⟩]⟩ : BoundedQueue AsyncMetadata)
        ⟨0, false, 3⟩).2.items.length ≤ 2 ∧
      (push_with_pop_on_full
        (⟨2, [⟨0, false, 1⟩, ⟨0, false, 2⟩]⟩ : BoundedQueue AsyncMetadata)
        ⟨0, false, 3⟩).2.capacity = 2 ∧
      (([⟨0, false, 1⟩, ⟨0, false, 2⟩] : List AsyncMetadata).length = 2 →
        (push_with_pop_on_full
          (⟨2, [⟨0, false, 1⟩, ⟨0, false, 2⟩]⟩ : BoundedQueue AsyncMetadata)
          ⟨0, false, 3⟩).2.items
          = ([⟨0, false, 1⟩, ⟨0, false, 2⟩] : List AsyncMetadata).tail
              ++ [⟨0, false, 3⟩])) :=
  ⟨⟨by decide, by decide⟩,
    async_queue_bounded_drop_oldest.2.1
      ⟨2, [⟨0, false, 1⟩, ⟨0, false, 2⟩]⟩ ⟨0, false, 3⟩ (by decide) (by decide)⟩

/-- C4: for a frame on the async stream id whose packet type is not
DATA: when its event code is 0 (the reserved flow-control ack code),
the credit word is parsed from the payload and acknowledged on the
channel's monitor and nothing is pushed to the async fifo; for any
other event code the monitor is untouched and exactly one async
metadata entry carrying that code is pushed. -/
theorem recv_pirate_ack_vs_event (sidBase index : Nat) (frame : StatusFrame)
    (st : PirateState)
    (hsid : frame.sid = sidBase ∨ frame.sid = sidBase + 1)
    (hdata : frame.is_data = false) :
    (frame.event_code = 0 →
      (recv_pirate_step sidBase index frame st).fc =
        update_fc_condition (ntohx (frame.payload.getD 1 ⟨0, 0, 0, 0⟩)) st.fc ∧
      (recv_pirate_step sidBase index frame st).fifo = st.fifo) ∧
    (frame.event_code ≠ 0 →
      (recv_pirate_step sidBase index frame st).fc = st.fc ∧
      (recv_pirate_step sidBase index frame st).fifo =
        (push_with_pop_on_full st.fifo
          ⟨index, frame.has_tsi && frame.has_tsf, frame.event_code⟩).2) := by
  constructor
  · intro hcode
    rw [recv_pirate_step, if_pos ⟨hsid, hdata⟩, if_pos hcode]
    exact ⟨rfl, rfl⟩
  · intro hcode
    rw [recv_pirate_step, if_pos ⟨hsid, hdata⟩, if_neg hcode]
    exact ⟨rfl, rfl⟩

/-- Witness for C4: the spec's scenario at sid base 48.  A status
frame with event code 0 and credit word 7 leaves `last_seq_ack = 7`
and the fifo unchanged; an underflow frame (code 2) leaves the
monitor unchanged and puts exactly one event with code 2 in the
fifo. -/
theorem recv_pirate_ack_vs_event_witness :
    ((recv_pirate_step 48 0 (ackFrame7 48) pirateState0).fc.last_seq_ack = 7 ∧
      (recv_pirate_step 48 0 (ackFrame7 48) pirateState0).fifo =
        pirateState0.fifo) ∧
    ((recv_pirate_step 48 0 (underflowFrame 48) pirateState0).fc =
        pirateState0.fc ∧
      (recv_pirate_step 48 0 (underflowFrame 48) pirateState0).fifo.items =
        [⟨0, false, 2⟩]) := by
  have hack :=
    recv_pirate_ack_vs_event 48 0 (ackFrame7 48) pirateState0 (Or.inl rfl) rfl
  have hund :=
    recv_pirate_ack_vs_event 48 0 (underflowFrame 48) pirateState0 (Or.inl rfl) rfl
  refine ⟨⟨?_, (hack.1 rfl).2⟩, (hund.2 (by decide)).1, ?_⟩
  · rw [(hack.1 rfl).1]
    decide
  · rw [(hund.2 (by decide)).2]
    decide

/-- C6: `get_tx_stream` rejects every explicitly requested wire format
other than `"sc16"` with a `uhd::value_error`, for every channel
occupancy configuration — the error is raised before any channel is
bound (the result carries no bindings). -/
theorem tx_stream_rejects_non_sc16 (occs : List Nat) (args : StreamArgs)
    (hne : args.otw_format ≠ "") (hfmt : args.otw_format ≠ "sc16") :
    get_tx_stream occs args =
      .error (.value_error
        ("USRP TX cannot handle requested wire format: " ++ args.otw_format)) := by
  simp [get_tx_stream, hne, hfmt]

/-- Witness for C6: requesting format `"sc8"` on a two-board
configuration fails with the value error. -/
theorem tx_stream_rejects_non_sc16_witness :
    (("sc8" : String) ≠ "" ∧ ("sc8" : String) ≠ "sc16") ∧
    get_tx_stream [2, 2] ⟨"sc8", [0]⟩ =
      .error (.value_error
        ("USRP TX cannot handle requested wire format: " ++ "sc8")) :=
  ⟨⟨by decide, by decide⟩,
    tx_stream_rejects_non_sc16 [2, 2] ⟨"sc8", [0]⟩ (by decide) (by decide)⟩

/-- C7 counterexample: with two boards of two channels each, requesting
logical channel 4 (out of range) raises no error at all — both
`get_tx_stream` and `get_rx_stream` complete, leaving the channel
silently unbound, contrary to the claimed `ChannelOutOfRange`
failure. -/
theorem unresolvable_channel_no_error :
    get_tx_stream [2, 2] ⟨"sc16", [4]⟩ = .ok [none] ∧
    get_rx_stream [2, 2] ⟨"sc16", [4]⟩ = [none] := by
  constructor <;> rfl

/-- A logical channel at or past the total configured occupancy is not
resolved by the binding loop. -/
theorem bindLoop_unresolvable (chan : Nat) :
    ∀ (occs : List Nat) (i s : Nat), s + occs.sum ≤ chan →
      bindLoop chan occs i s = none
  | [], _, _, _ => rfl
  | occ :: rest, i, s, hle => by
    rw [List.sum_cons] at hle
    simp only [bindLoop]
    rw [if_neg (by omega)]
    exact bindLoop_unresolvable chan rest (i + 1) (s + occ) (by omega)

/-- C7 amended: when the requested logical channel index is at least
the total number of active channels across all boards, streamer
creation completes without error and without binding that channel (the
binding loop leaves it unbound); no `ChannelOutOfRange` (or any other)
error is signalled. -/
theorem unresolvable_channel_amended (occs : List Nat) (chan : Nat)
    (hchan : occs.sum ≤ chan) :
    get_tx_stream occs ⟨"sc16", [chan]⟩ = .ok [none] ∧
    get_rx_stream occs ⟨"sc16", [chan]⟩ = [none] := by
  have hres : resolveChan occs chan = none :=
    bindLoop_unresolvable chan occs 0 0 (by omega)
  constructor
  · simp [get_tx_stream, hres]
  · simp [get_rx_stream, hres]

/-- Witness for C7's amended claim: two boards of two channels each,
requested channel 4. -/
theorem unresolvable_channel_amended_witness :
    ([2, 2] : List Nat).sum ≤ 4 ∧
    (get_tx_stream [2, 2] ⟨"sc16", [4]⟩ = .ok [none] ∧
      get_rx_stream [2, 2] ⟨"sc16", [4]⟩ = [none]) :=
  ⟨by decide, unresolvable_channel_amended [2, 2] 4 (by decide)⟩

/-- The accumulating binding loop of the source agrees with the
specification-level resolver: walking the boards with a running
`num_chan_so_far` and computing slot `chan + occ − num_chan_so_far`
is the same as peeling boards off the front while subtracting their
occupancies. -/
theorem bindLoop_eq_resolveSpec (chan : Nat) :
    ∀ (occs : List Nat) (i s : Nat), s ≤ chan →
      bindLoop chan occs i s =
        (resolveSpec occs (chan - s)).map (fun p => (p.1 + i, p.2))
  | [], _, _, _ => rfl
  | occ :: rest, i, s, hs => by
    simp only [bindLoop, resolveSpec]
    by_cases h : chan < s + occ
    · rw [if_pos h, if_pos (by omega : chan - s < occ)]
      simp only [Option.map_some', Option.some.injEq, Prod.mk.injEq]
      exact ⟨by omega, by omega⟩
    · rw [if_neg h, if_neg (by omega : ¬ chan - s < occ),
        bindLoop_eq_resolveSpec chan rest (i + 1) (s + occ) (by omega),
        Nat.sub_sub]
      cases resolveSpec rest (chan - (s + occ)) with
      | none => rfl
      | some p =>
          simp only [Option.map_some', Option.some.injEq, Prod.mk.injEq]
          exact ⟨by omega, trivial⟩

/-- C8: the channel binder of the source resolves every resolvable
logical index exactly as the spec describes — boards are walked in
registration order with the first board's channels at the lowest
logical indices, the matched board's slot being the channel's offset
within it; in particular with occupancies `[2, 2]`, logical channel 2
resolves to the second board's slot 0. -/
theorem channel_binder_registration_order :
    (∀ (occs : List Nat) (chan : Nat),
      resolveChan occs chan = resolveSpec occs chan) ∧
    resolveChan [2, 2] 2 = some (1, 0) := by
  constructor
  · intro occs chan
    rw [resolveChan, bindLoop_eq_resolveSpec chan occs 0 0 (Nat.zero_le _),
      Nat.sub_zero]
    cases resolveSpec occs chan with
    | none => rfl
    | some p => simp
  · rfl

/-- The timed flow-control wait only ever touches `last_seq_ack`:
`last_seq_out` survives any sequence of acknowledgements delivered
during the wait. -/
theorem timed_wait_ready_preserves_out (max_seqs_out : Nat) :
    ∀ (s : FCState) (acks : List Nat),
      (timed_wait_ready max_seqs_out s acks).2.last_seq_out = s.last_seq_out
  | _, [] => rfl
  | s, a :: rest => by
    simp only [timed_wait_ready]
    by_cases h : ready max_seqs_out (update_fc_condition a s) = true
    · rw [if_pos h]
      rfl
    · rw [if_neg h]
      exact timed_wait_ready_preserves_out max_seqs_out
        (update_fc_condition a s) rest

/-- `check_fc_condition` never changes `last_seq_out`. -/
theorem check_fc_preserves_out (max_seqs_out : Nat) (s : FCState)
    (acks : List Nat) :
    (check_fc_condition max_seqs_out s acks).2.last_seq_out =
      s.last_seq_out := by
  rw [check_fc_condition]
  by_cases h : ready max_seqs_out s = true
  · rw [if_pos h]
  · rw [if_neg h]
    exact timed_wait_ready_preserves_out max_seqs_out s acks

/-- C10: a failed send-buffer acquisition never consumes a sequence
number — whenever `get_send_buff` returns a null buffer (flow-control
timeout or no transport buffer), `last_seq_out` is unchanged; and when
a transport buffer is obtained after a successful flow-control wait,
the current sequence number is written into the buffer's first 32-bit
word and only then incremented. -/
theorem get_send_buff_seq_discipline (max_seqs_out : Nat) (acks : List Nat)
    (tb : Option (List Word32)) (s : FCState) :
    ((get_send_buff max_seqs_out acks tb s).1 = none →
      (get_send_buff max_seqs_out acks tb s).2.last_seq_out =
        s.last_seq_out) ∧
    (∀ buff, tb = some buff →
      (check_fc_condition max_seqs_out s acks).1 = true →
      (get_send_buff max_seqs_out acks tb s).1 =
        some (buff.set 0 (htonx s.last_seq_out)) ∧
      (get_send_buff max_seqs_out acks tb s).2.last_seq_out =
        (s.last_seq_out + 1) % seqMod) := by
  have hpres := check_fc_preserves_out max_seqs_out s acks
  by_cases hfc : (check_fc_condition max_seqs_out s acks).1 = false
  · constructor
    · intro _
      simp only [get_send_buff, if_pos hfc]
      exact hpres
    · intro buff _ hok
      rw [hok] at hfc
      exact absurd hfc (by simp)
  · cases tb with
    | none =>
        constructor
        · intro _
          simp only [get_send_buff, if_neg hfc]
          exact hpres
        · intro buff htb
          exact absurd htb (by simp)
    | some buff =>
        constructor
        · intro hnone
          simp only [get_send_buff, if_neg hfc] at hnone
          exact absurd hnone (by simp)
        · intro buff' htb _
          rw [Option.some.injEq] at htb
          subst htb
          constructor
          · simp only [get_send_buff, get_curr_seq_out, if_neg hfc]
            rw [hpres]
          · simp only [get_send_buff, get_curr_seq_out, if_neg hfc]
            rw [hpres]

/-- Witness for C10: a one-word transport buffer on a ready monitor in
the cleared state — sequence 0 is written big-endian into word 0 and
the counter advances to 1; and with no transport buffer the counter
stays 0. -/
theorem get_send_buff_seq_discipline_witness :
    ((some [Word32.mk 9 9 9 9] = some [Word32.mk 9 9 9 9]) ∧
      (check_fc_condition 1 FCState.clear []).1 = true) ∧
    ((get_send_buff 1 [] (some [Word32.mk 9 9 9 9]) FCState.clear).1 =
        some ([Word32.mk 9 9 9 9].set 0 (htonx FCState.clear.last_seq_out)) ∧
      (get_send_buff 1 [] (some [Word32.mk 9 9 9 9]) FCState.clear).2.last_seq_out =
        (FCState.clear.last_seq_out + 1) % seqMod) ∧
    ((get_send_buff 1 [] none FCState.clear).1 = none →
      (get_send_buff 1 [] none FCState.clear).2.last_seq_out =
        FCState.clear.last_seq_out) :=
  ⟨⟨rfl, by decide⟩,
    (get_send_buff_seq_discipline 1 [] (some [Word32.mk 9 9 9 9])
        FCState.clear).2 [Word32.mk 9 9 9 9] rfl (by decide),
    (get_send_buff_seq_discipline 1 [] none FCState.clear).1⟩

end Umtrx
